import Mathlib

/-!
Shallow embedding of the JSON-backed persistence layer of the movieweb
application (`DataManager/json_data_manager.py`), together with proofs of
the specified properties.

The on-disk document holds one key, `users`, mapping to a list of user
records; each user owns a list of movie records.  Every public method of
`JSONDataManager` loads the whole document, scans and possibly mutates the
in-memory list, and (for mutating calls) rewrites the whole document.  We
model the loaded document as a `List User`; each operation is a pure
function from the loaded list (plus its arguments) to its Python return
value, the list that ends up on disk, and a flag recording whether the
method called `_write_data`.

Python ids may arrive as either a string or an integer; methods coerce
them with `str(...)` / `int(...)` at their boundary (or fail to, in the
case of `get_user_movies`).  `PyId` models such a dynamically typed
argument, `pyStr` models Python `str`, and `pyToInt?` models Python
`int` (which raises on a non-numeric string, hence `Option`).

The movie rating is a Python float; no arithmetic is ever performed on
it (it is only parsed, stored, compared and re-serialized), so we model
it as a rational number, which is exact for every decimal literal the
code moves around.
-/

/-- A movie record, as built by `add_movie`:
`{'name': ..., 'director': ..., 'year': int(...), 'rating': float(...), 'id': ...}`. -/
structure Movie where
  id : Int
  name : String
  director : String
  year : Int
  rating : Rat
  deriving Repr, DecidableEq

/-- A user record, as built by `add_user`:
`{'user_id': str(...), 'name': ..., 'movies': [...]}`. -/
structure User where
  user_id : String
  name : String
  movies : List Movie
  deriving Repr, DecidableEq

/-- A dynamically typed Python id argument: the caller may pass a string
or an integer. -/
inductive PyId where
  | str (s : String)
  | int (n : Int)
  deriving Repr, DecidableEq

/-- Python `str(x)` on an id: identity on strings, decimal rendering on
integers. -/
def pyStr : PyId → String
  | .str s => s
  | .int n => toString n

/-- Accumulate decimal digits; fail on the first non-digit character. -/
def parseDigitsAux : List Char → Nat → Option Nat
  | [], acc => some acc
  | c :: cs, acc =>
      if c.isDigit then parseDigitsAux cs (acc * 10 + (c.toNat - '0'.toNat))
      else none

/-- Python `int(string)` on a plain decimal numeral, optionally signed;
`none` models the `ValueError` raised on a non-numeric string. -/
def pyParseInt (s : String) : Option Int :=
  match s.data with
  | [] => none
  | '-' :: [] => none
  | '-' :: c :: cs => (parseDigitsAux (c :: cs) 0).map (fun n => -(n : Int))
  | c :: cs => (parseDigitsAux (c :: cs) 0).map (fun n => (n : Int))

/-- Python `int(x)` on an id: identity on integers, decimal parse on
strings. -/
def pyToInt? : PyId → Option Int
  | .str s => pyParseInt s
  | .int n => some n

/-- Python `==` between a passed id and a stored string field: a string
compares by value, an integer is never equal to a string. -/
def pyEqStr (i : PyId) (s : String) : Bool :=
  match i with
  | .str t => t == s
  | .int _ => false

/-- `max(generator, default=0)`: the maximum of a list of integers, `0`
when the list is empty (the default is used only for an empty list). -/
def maxDefault0 : List Int → Int
  | [] => 0
  | x :: xs => xs.foldl max x

/-- The result value of `add_user`: Python returns either a bare error
string or the tuple `(None, user_name)`. -/
inductive AddUserResult where
  | errStr (msg : String)
  | okPair (name : String)
  deriving Repr, DecidableEq

/-- Whether Python tuple unpacking `a, b = result` succeeds on an
`add_user` result: a 2-tuple always unpacks; a string unpacks only when
it has exactly two characters (each binding one character). -/
def fitsPairShape : AddUserResult → Bool
  | .okPair _ => true
  | .errStr s => s.length == 2

/-- `JSONDataManager.add_user`: scans for a name collision and returns the
error string without writing; otherwise appends a user with
`user_id = str(len(data) + 1)` and an empty movie list, and writes.
Returns (Python result, data on disk after the call, whether a write
occurred). -/
def add_user (data : List User) (user_name : String) : AddUserResult × List User × Bool :=
  match data.find? (fun user => user.name == user_name) with
  | some _ => (.errStr "User with this name already exists.", data, false)
  | none =>
      let new_user : User :=
        { user_id := toString (data.length + 1), name := user_name, movies := [] }
      (.okPair user_name, data ++ [new_user], true)

/-- `JSONDataManager.get_user_movies`: linear scan comparing the raw
argument against the stored string `user_id` (no coercion); returns the
first match's movies, or `[]`. -/
def get_user_movies (data : List User) (user_id : PyId) : List Movie :=
  match data.find? (fun user => pyEqStr user_id user.user_id) with
  | some user => user.movies
  | none => []

/-- The normalized outcome of the OMDb enrichment lookup performed at the
top of `add_movie`: either a found record whose `Year` has been parsed to
an integer and whose `imdbRating` is `some r` (present and not the string
representing an unknown rating) or `none`, or the not-found response
carrying the remote error message. -/
inductive OmdbResponse where
  | found (title director : String) (year : Int) (rating : Option Rat)
  | notFound (error : String)
  deriving Repr, DecidableEq

/-- The loop body of `add_movie`'s success branch: find the first user
whose `user_id` equals the (already coerced) id, append the new movie with
id `max(existing ids, default 0) + 1`, and stop (`break`). -/
def addMovieToUsers (uid : String) (title director : String) (year : Int) (rating : Rat) :
    List User → List User
  | [] => []
  | user :: rest =>
      if user.user_id == uid then
        let max_id := maxDefault0 (user.movies.map Movie.id)
        { user with
            movies := user.movies ++
              [{ id := max_id + 1, name := title, director := director,
                 year := year, rating := rating }] } :: rest
      else
        user :: addMovieToUsers uid title director year rating rest

/-- `JSONDataManager.add_movie`: on a not-found lookup, returns the remote
error message without touching the file; on success, coerces the user id
with `str`, loads, appends the enriched movie to the first matching user
(rating defaults to `0.0` when absent/unknown), and writes unconditionally,
returning `None`.  Result: (Python return value, data on disk after the
call, whether a write occurred). -/
def add_movie (data : List User) (user_id : PyId) (resp : OmdbResponse) :
    Option String × List User × Bool :=
  match resp with
  | .notFound err => (some err, data, false)
  | .found title director year rating =>
      let newData := addMovieToUsers (pyStr user_id) title director year (rating.getD 0) data
      (none, newData, true)

/-- The nested loops of `get_movie`: for each user with the matching id,
return the first movie with the matching id; the outer loop is not broken
when the inner loop finds nothing. -/
def getMovieCore : List User → String → Int → Option Movie
  | [], _, _ => none
  | user :: rest, uid, mid =>
      if user.user_id == uid then
        match user.movies.find? (fun movie => movie.id == mid) with
        | some movie => some movie
        | none => getMovieCore rest uid mid
      else getMovieCore rest uid mid

/-- `JSONDataManager.get_movie`: coerces `user_id` with `str` and
`movie_id` with `int`, then scans; `none` at the outer level models the
exception raised by `int(...)` on a non-numeric string. -/
def get_movie (data : List User) (user_id movie_id : PyId) : Option (Option Movie) :=
  (pyToInt? movie_id).map fun mid => getMovieCore data (pyStr user_id) mid

/-- A partial movie update, modelling the dict passed to `update_movie`:
each field is present (`some`) or absent (`none`); `dict.update` overwrites
exactly the present ones. -/
structure MovieUpdate where
  id : Option Int := none
  name : Option String := none
  director : Option String := none
  year : Option Int := none
  rating : Option Rat := none
  deriving Repr, DecidableEq

/-- `movie.update(updated_movie)`: shallow merge, fields present in the
update overwrite, absent fields keep their stored value. -/
def Movie.applyUpdate (m : Movie) (u : MovieUpdate) : Movie :=
  { id := u.id.getD m.id, name := u.name.getD m.name,
    director := u.director.getD m.director, year := u.year.getD m.year,
    rating := u.rating.getD m.rating }

/-- The inner loop of `update_movie`: merge the update into the first
movie with the matching id; `none` when no movie matches. -/
def updateInMovies : List Movie → Int → MovieUpdate → Option (List Movie)
  | [], _, _ => none
  | movie :: rest, mid, upd =>
      if movie.id == mid then some (movie.applyUpdate upd :: rest)
      else (updateInMovies rest mid upd).map (movie :: ·)

/-- The nested loops of `update_movie`: on the first matching user and
movie, merge and return immediately (the write happens exactly then);
when a user matches but none of its movies do, the outer loop continues. -/
def updateMovieCore : List User → String → Int → MovieUpdate → List User × Bool
  | [], _, _, _ => ([], false)
  | user :: rest, uid, mid, upd =>
      if user.user_id == uid then
        match updateInMovies user.movies mid upd with
        | some newMovies => ({ user with movies := newMovies } :: rest, true)
        | none =>
            let r := updateMovieCore rest uid mid upd
            (user :: r.1, r.2)
      else
        let r := updateMovieCore rest uid mid upd
        (user :: r.1, r.2)

/-- `JSONDataManager.update_movie`: coerces ids, scans, merges into the
first match and writes only then.  Result: (data on disk after the call,
whether a write occurred); outer `none` models the `int(...)` exception. -/
def update_movie (data : List User) (user_id movie_id : PyId) (upd : MovieUpdate) :
    Option (List User × Bool) :=
  (pyToInt? movie_id).map fun mid => updateMovieCore data (pyStr user_id) mid upd

/-- The loop of `delete_movie`: replace the first matching user's movie
list by the movies whose id differs from the target, then `break`. -/
def deleteMovieCore : List User → String → Int → List User
  | [], _, _ => []
  | user :: rest, uid, mid =>
      if user.user_id == uid then
        { user with movies := user.movies.filter (fun movie => movie.id != mid) } :: rest
      else user :: deleteMovieCore rest uid mid

/-- `JSONDataManager.delete_movie`: coerces ids, filters the first
matching user's movies, and writes unconditionally (the write happens even
when no user or no movie matched).  Result as in `update_movie`; the
`true` records the unconditional `_write_data` call. -/
def delete_movie (data : List User) (user_id movie_id : PyId) :
    Option (List User × Bool) :=
  (pyToInt? movie_id).map fun mid => (deleteMovieCore data (pyStr user_id) mid, true)

/-- `JSONDataManager.list_all_users`: returns the loaded list unchanged. -/
def list_all_users (data : List User) : List User := data

/-!
## Persistence: `_load_data` / `_write_data`

`_write_data` serializes `{'users': data}` with `json.dump`; `_load_data`
parses the file with `json.load` and projects `data['users']`.  We model
the JSON values the library moves between memory and disk with a small
JSON AST (`Json`), an encoder following the record shapes the code
builds, and a decoder that looks fields up by key the way `json.load`
reconstructs dicts.  Python's `json` distinguishes integers from floats,
hence two number constructors.
-/

/-- A JSON value as handled by Python's `json` module. -/
inductive Json where
  | jstr (s : String)
  | jint (n : Int)
  | jnum (q : Rat)
  | jarr (items : List Json)
  | jobj (fields : List (String × Json))

/-- Look a key up in a JSON object's field list (first occurrence). -/
def jGet (fields : List (String × Json)) (key : String) : Option Json :=
  (fields.find? (fun kv => kv.1 == key)).map (fun kv => kv.2)

/-- Expect a JSON string. -/
def asStr : Json → Option String
  | .jstr s => some s
  | _ => none

/-- Expect a JSON integer. -/
def asInt : Json → Option Int
  | .jint n => some n
  | _ => none

/-- Expect a JSON (fractional) number. -/
def asNum : Json → Option Rat
  | .jnum q => some q
  | _ => none

/-- Expect a JSON array. -/
def asArr : Json → Option (List Json)
  | .jarr items => some items
  | _ => none

/-- Serialize a movie record, with the field layout `add_movie` builds. -/
def encodeMovie (m : Movie) : Json :=
  .jobj [("id", .jint m.id), ("name", .jstr m.name),
         ("director", .jstr m.director), ("year", .jint m.year),
         ("rating", .jnum m.rating)]

/-- Serialize a user record, with the field layout `add_user` builds. -/
def encodeUser (u : User) : Json :=
  .jobj [("user_id", .jstr u.user_id), ("name", .jstr u.name),
         ("movies", .jarr (u.movies.map encodeMovie))]

/-- `_write_data(data)`: the document written to disk is
`{'users': data}`. -/
def write_data (data : List User) : Json :=
  .jobj [("users", .jarr (data.map encodeUser))]

/-- Decode every element of a JSON array, failing if any element fails. -/
def decodeList {α : Type} (f : Json → Option α) : List Json → Option (List α)
  | [] => some []
  | x :: xs =>
      match f x, decodeList f xs with
      | some a, some as => some (a :: as)
      | _, _ => none

/-- Decode a movie record from its JSON object. -/
def decodeMovie (j : Json) : Option Movie :=
  match j with
  | .jobj fields =>
      match (jGet fields "id").bind asInt, (jGet fields "name").bind asStr,
            (jGet fields "director").bind asStr, (jGet fields "year").bind asInt,
            (jGet fields "rating").bind asNum with
      | some id, some name, some director, some year, some rating =>
          some { id := id, name := name, director := director,
                 year := year, rating := rating }
      | _, _, _, _, _ => none
  | _ => none

/-- Decode a user record from its JSON object. -/
def decodeUser (j : Json) : Option User :=
  match j with
  | .jobj fields =>
      match (jGet fields "user_id").bind asStr, (jGet fields "name").bind asStr,
            (jGet fields "movies").bind asArr with
      | some user_id, some name, some movieItems =>
          (decodeList decodeMovie movieItems).map
            (fun movies => { user_id := user_id, name := name, movies := movies })
      | _, _, _ => none
  | _ => none

/-- `_load_data()`: parse the document and return `data['users']`; `none`
models the exception propagated on a structurally invalid document. -/
def load_data (doc : Json) : Option (List User) :=
  match doc with
  | .jobj fields =>
      ((jGet fields "users").bind asArr).bind (decodeList decodeUser)
  | _ => none

/-!
## Per-user movie-id history

`MovieTrace ms used` holds when a user's movie list `ms` is reachable
from the empty list by the exact per-user steps `add_movie` and
`delete_movie` perform on the matched user (append with id
`max(existing ids, default 0) + 1`; filter by id), and `used` collects
every id an add step has ever assigned along the way.
-/

/-- Reachable movie lists of one user, together with the ids ever
assigned by the add steps. -/
inductive MovieTrace : List Movie → List Int → Prop where
  | nil : MovieTrace [] []
  | add (t d : String) (y : Int) (r : Rat) {ms : List Movie} {used : List Int} :
      MovieTrace ms used →
      MovieTrace
        (ms ++ [{ id := maxDefault0 (ms.map Movie.id) + 1, name := t,
                  director := d, year := y, rating := r }])
        ((maxDefault0 (ms.map Movie.id) + 1) :: used)
  | del (mid : Int) {ms : List Movie} {used : List Int} :
      MovieTrace ms used →
      MovieTrace (ms.filter (fun m => m.id != mid)) used

/-!
## Helper lemmas
-/

theorem le_foldl_max_self (xs : List Int) (b : Int) : b ≤ xs.foldl max b := by
  induction xs generalizing b with
  | nil => exact le_refl b
  | cons x xs ih =>
      simp only [List.foldl_cons]
      exact le_trans (le_max_left b x) (ih (max b x))

theorem le_foldl_max_of_mem {a : Int} {xs : List Int} (h : a ∈ xs) (b : Int) :
    a ≤ xs.foldl max b := by
  induction xs generalizing b with
  | nil => cases h
  | cons x xs ih =>
      simp only [List.foldl_cons]
      rcases List.mem_cons.mp h with rfl | h2
      · exact le_trans (le_max_right b a) (le_foldl_max_self xs (max b a))
      · exact ih h2 (max b x)

theorem foldl_max_eq_or_mem (xs : List Int) (b : Int) :
    xs.foldl max b = b ∨ xs.foldl max b ∈ xs := by
  induction xs generalizing b with
  | nil => exact Or.inl rfl
  | cons x xs ih =>
      simp only [List.foldl_cons]
      rcases ih (max b x) with h | h
      · rcases max_choice b x with he | he
        · exact Or.inl (h.trans he)
        · exact Or.inr (List.mem_cons.mpr (Or.inl (h.trans he)))
      · exact Or.inr (List.mem_cons_of_mem x h)

theorem le_maxDefault0_of_mem {a : Int} {l : List Int} (h : a ∈ l) :
    a ≤ maxDefault0 l := by
  cases l with
  | nil => cases h
  | cons x xs =>
      rcases List.mem_cons.mp h with rfl | h2
      · exact le_foldl_max_self xs a
      · exact le_foldl_max_of_mem h2 x

theorem maxDefault0_mem {l : List Int} (h : l ≠ []) : maxDefault0 l ∈ l := by
  cases l with
  | nil => exact absurd rfl h
  | cons x xs =>
      simp only [maxDefault0]
      rcases foldl_max_eq_or_mem xs x with he | hm
      · rw [he]; exact List.mem_cons_self x xs
      · exact List.mem_cons_of_mem x hm

/-- The invariant maintained along any per-user movie trace: every stored
id was assigned at some point, assigned ids are positive and downward
closed (every positive id below an assigned id was also assigned), and the
ids in the list are pairwise distinct. -/
theorem movieTrace_invariant {ms : List Movie} {used : List Int}
    (h : MovieTrace ms used) :
    (∀ m ∈ ms, m.id ∈ used) ∧ (∀ i ∈ used, 1 ≤ i) ∧
    (∀ i ∈ used, ∀ j : Int, 1 ≤ j → j ≤ i → j ∈ used) ∧
    (ms.map Movie.id).Nodup := by
  induction h with
  | nil => simp
  | add t d y r htr ih =>
      obtain ⟨h1, h2, h3, h4⟩ := ih
      rename_i ms used
      have hMused : ms.map Movie.id ≠ [] → maxDefault0 (ms.map Movie.id) ∈ used := by
        intro hne
        obtain ⟨m, hm, hid⟩ := List.mem_map.mp (maxDefault0_mem hne)
        exact hid ▸ h1 m hm
      refine ⟨?_, ?_, ?_, ?_⟩
      · intro m hm
        rcases List.mem_append.mp hm with hl | hr
        · exact List.mem_cons_of_mem _ (h1 m hl)
        · simp only [List.mem_singleton] at hr
          subst hr
          exact List.mem_cons_self _ _
      · intro i hi
        rcases List.mem_cons.mp hi with rfl | hi2
        · by_cases hne : ms.map Movie.id = []
          · rw [hne]; norm_num [maxDefault0]
          · have := h2 _ (hMused hne)
            omega
        · exact h2 i hi2
      · intro i hi j hj1 hji
        rcases List.mem_cons.mp hi with rfl | hi2
        · by_cases hje : j = maxDefault0 (ms.map Movie.id) + 1
          · exact hje ▸ List.mem_cons_self _ _
          · have hjM : j ≤ maxDefault0 (ms.map Movie.id) := by omega
            have hne : ms.map Movie.id ≠ [] := by
              intro he
              rw [he] at hjM
              simp only [maxDefault0] at hjM
              omega
            exact List.mem_cons_of_mem _ (h3 _ (hMused hne) j hj1 hjM)
        · exact List.mem_cons_of_mem _ (h3 i hi2 j hj1 hji)
      · rw [List.map_append]
        refine List.Nodup.append h4 (List.nodup_singleton _) ?_
        intro a ha hb
        simp only [List.map_cons, List.map_nil, List.mem_singleton] at hb
        have := le_maxDefault0_of_mem ha
        omega
  | del mid htr ih =>
      obtain ⟨h1, h2, h3, h4⟩ := ih
      refine ⟨?_, h2, h3, ?_⟩
      · intro m hm
        exact h1 m (List.mem_of_mem_filter hm)
      · exact List.Nodup.sublist (List.Sublist.map Movie.id (List.filter_sublist _)) h4

theorem addMovieToUsers_found (pre post : List User) (u : User) (uid t d : String)
    (y : Int) (r : Rat) (hpre : ∀ v ∈ pre, v.user_id ≠ uid) (hu : u.user_id = uid) :
    addMovieToUsers uid t d y r (pre ++ u :: post) =
      pre ++ { u with movies := u.movies ++
        [{ id := maxDefault0 (u.movies.map Movie.id) + 1, name := t, director := d,
           year := y, rating := r }] } :: post := by
  induction pre with
  | nil => simp [addMovieToUsers, hu]
  | cons v vs ih =>
      have hv : v.user_id ≠ uid := hpre v (List.mem_cons_self v vs)
      simp only [List.cons_append, addMovieToUsers, beq_iff_eq, hv, if_false]
      exact congrArg (v :: ·) (ih (fun w hw => hpre w (List.mem_cons_of_mem v hw)))

theorem addMovieToUsers_not_found (data : List User) (uid t d : String) (y : Int)
    (r : Rat) (h : ∀ v ∈ data, v.user_id ≠ uid) :
    addMovieToUsers uid t d y r data = data := by
  induction data with
  | nil => rfl
  | cons v vs ih =>
      have hv : v.user_id ≠ uid := h v (List.mem_cons_self v vs)
      simp only [addMovieToUsers, beq_iff_eq, hv, if_false]
      exact congrArg (v :: ·) (ih (fun w hw => h w (List.mem_cons_of_mem v hw)))

theorem updateInMovies_found (mpre mpost : List Movie) (m : Movie) (mid : Int)
    (upd : MovieUpdate) (hpre : ∀ m2 ∈ mpre, m2.id ≠ mid) (hm : m.id = mid) :
    updateInMovies (mpre ++ m :: mpost) mid upd =
      some (mpre ++ m.applyUpdate upd :: mpost) := by
  induction mpre with
  | nil => simp [updateInMovies, hm]
  | cons m2 ms ih =>
      have h2 : m2.id ≠ mid := hpre m2 (List.mem_cons_self m2 ms)
      simp only [List.cons_append, updateInMovies, beq_iff_eq, h2, if_false,
        List.append_eq]
      rw [ih (fun w hw => hpre w (List.mem_cons_of_mem m2 hw))]
      rfl

theorem updateInMovies_not_found (ms : List Movie) (mid : Int) (upd : MovieUpdate)
    (h : ∀ m ∈ ms, m.id ≠ mid) : updateInMovies ms mid upd = none := by
  induction ms with
  | nil => rfl
  | cons m rest ih =>
      have hm : m.id ≠ mid := h m (List.mem_cons_self m rest)
      simp only [updateInMovies, beq_iff_eq, hm, if_false]
      rw [ih (fun w hw => h w (List.mem_cons_of_mem m hw))]
      rfl

theorem updateMovieCore_found (pre post : List User) (u : User) (uid : String)
    (mid : Int) (upd : MovieUpdate) (newMovies : List Movie)
    (hpre : ∀ v ∈ pre, v.user_id ≠ uid) (hu : u.user_id = uid)
    (hin : updateInMovies u.movies mid upd = some newMovies) :
    updateMovieCore (pre ++ u :: post) uid mid upd =
      (pre ++ { u with movies := newMovies } :: post, true) := by
  induction pre with
  | nil => simp [updateMovieCore, hu, hin]
  | cons v vs ih =>
      have hv : v.user_id ≠ uid := hpre v (List.mem_cons_self v vs)
      simp only [List.cons_append, updateMovieCore, beq_iff_eq, hv, if_false,
        List.append_eq]
      rw [ih (fun w hw => hpre w (List.mem_cons_of_mem v hw))]

theorem updateMovieCore_not_found (data : List User) (uid : String) (mid : Int)
    (upd : MovieUpdate)
    (h : ∀ u ∈ data, u.user_id = uid → ∀ m ∈ u.movies, m.id ≠ mid) :
    updateMovieCore data uid mid upd = (data, false) := by
  induction data with
  | nil => rfl
  | cons u rest ih =>
      have ihr := ih (fun w hw => h w (List.mem_cons_of_mem u hw))
      by_cases hu : u.user_id = uid
      · have hnone : updateInMovies u.movies mid upd = none :=
          updateInMovies_not_found _ _ _ (h u (List.mem_cons_self u rest) hu)
        simp [updateMovieCore, hu, hnone, ihr]
      · simp [updateMovieCore, hu, ihr]

theorem deleteMovieCore_idem (data : List User) (uid : String) (mid : Int) :
    deleteMovieCore (deleteMovieCore data uid mid) uid mid =
      deleteMovieCore data uid mid := by
  induction data with
  | nil => rfl
  | cons u rest ih =>
      by_cases hu : u.user_id = uid
      · have hf : (u.movies.filter (fun m => m.id != mid)).filter
            (fun m => m.id != mid) = u.movies.filter (fun m => m.id != mid) :=
          List.filter_eq_self.mpr (fun a ha => (List.mem_filter.mp ha).2)
        simp [deleteMovieCore, hu, hf]
      · simp [deleteMovieCore, hu, ih]

theorem decodeList_map_of_inverse {α : Type} (f : Json → Option α) (g : α → Json)
    (h : ∀ a, f (g a) = some a) (l : List α) :
    decodeList f (l.map g) = some l := by
  induction l with
  | nil => rfl
  | cons a as ih => simp [decodeList, h, ih]

theorem decodeMovie_encodeMovie (m : Movie) : decodeMovie (encodeMovie m) = some m := by
  simp [decodeMovie, encodeMovie, jGet, asInt, asStr, asNum, List.find?]

theorem decodeUser_encodeUser (u : User) : decodeUser (encodeUser u) = some u := by
  simp [decodeUser, encodeUser, jGet, asStr, asArr, List.find?,
        decodeList_map_of_inverse decodeMovie encodeMovie decodeMovie_encodeMovie]

/-!
## Sample data for concrete witnesses
-/

/-- The movie record of the spec's end-to-end scenario. -/
def sampleMovie : Movie :=
  { id := 1, name := "Inception", director := "Christopher Nolan", year := 2010,
    rating := 88/10 }

/-- A user owning one movie. -/
def sampleUser : User := { user_id := "1", name := "Alice", movies := [sampleMovie] }

/-- A one-user document. -/
def sampleDoc : List User := [sampleUser]

/-!
## Claims
-/

/-- C3: adding a user whose name is already borne by some stored user
returns the domain error string and performs no write: the stored list is
returned unchanged and the write flag is false. -/
theorem add_user_duplicate_no_write (data : List User) (user_name : String)
    (h : ∃ u ∈ data, u.name = user_name) :
    add_user data user_name =
      (.errStr "User with this name already exists.", data, false) := by
  obtain ⟨u, hu, hname⟩ := h
  have hsome : (data.find? (fun user => user.name == user_name)).isSome := by
    rw [List.find?_isSome]
    exact ⟨u, hu, by simp [hname]⟩
  obtain ⟨v, hv⟩ := Option.isSome_iff_exists.mp hsome
  simp [add_user, hv]

theorem add_user_duplicate_no_write_witness :
    add_user sampleDoc "Alice" =
      (.errStr "User with this name already exists.", sampleDoc, false) :=
  add_user_duplicate_no_write sampleDoc "Alice" (by decide)

/-- C4: when the enrichment lookup signals not-found, `add_movie` returns
the remote error message unchanged and performs no write: the document is
exactly the loaded one and the write flag is false. -/
theorem add_movie_not_found_passthrough (data : List User) (user_id : PyId)
    (err : String) :
    add_movie data user_id (.notFound err) = (some err, data, false) := rfl

/-- C5: on a successful lookup for a user id matching no stored user,
`add_movie` still writes, but the written document equals the loaded one,
and the caller gets the success value `None`. -/
theorem add_movie_unknown_user_silent_noop (data : List User) (user_id : PyId)
    (t d : String) (y : Int) (r : Option Rat)
    (h : ∀ u ∈ data, u.user_id ≠ pyStr user_id) :
    add_movie data user_id (.found t d y r) = (none, data, true) := by
  simp [add_movie, addMovieToUsers_not_found data (pyStr user_id) t d y (r.getD 0) h]

theorem add_movie_unknown_user_silent_noop_witness :
    add_movie sampleDoc (.str "2")
        (.found "Inception" "Christopher Nolan" 2010 (some (88/10))) =
      (none, sampleDoc, true) :=
  add_movie_unknown_user_silent_noop sampleDoc (.str "2") "Inception"
    "Christopher Nolan" 2010 (some (88/10)) (by decide)

/-- C8: writing the in-memory user list with `_write_data` and loading it
back with `_load_data` yields exactly the list that was written. -/
theorem write_then_load_roundtrip (users : List User) :
    load_data (write_data users) = some users := by
  simp [load_data, write_data, jGet, asArr, List.find?,
        decodeList_map_of_inverse decodeUser encodeUser decodeUser_encodeUser]

/-- C9: when no stored user compares equal to the passed id,
`get_user_movies` returns the empty list (and, being total, signals no
error). -/
theorem get_user_movies_absent_empty (data : List User) (user_id : PyId)
    (h : ∀ u ∈ data, pyEqStr user_id u.user_id = false) :
    get_user_movies data user_id = [] := by
  have hnone : data.find? (fun user => pyEqStr user_id user.user_id) = none :=
    List.find?_eq_none.mpr (fun u hu => by simp [h u hu])
  simp [get_user_movies, hnone]

theorem get_user_movies_absent_empty_witness :
    get_user_movies sampleDoc (.str "2") = [] :=
  get_user_movies_absent_empty sampleDoc (.str "2") (by decide)

/-- C10 (implicit): `add_user`'s two outcomes have different result
shapes: on success it returns the pair `(None, user_name)`, which a caller
may destructure as a pair, while on a duplicate name it returns a bare
error string, which does not fit a two-element destructuring (the string
has 35 characters, not 2). -/
theorem add_user_result_shape (data : List User) (user_name : String) :
    ((∃ u ∈ data, u.name = user_name) →
      (add_user data user_name).1 = .errStr "User with this name already exists." ∧
      fitsPairShape (add_user data user_name).1 = false) ∧
    ((∀ u ∈ data, u.name ≠ user_name) →
      (add_user data user_name).1 = .okPair user_name ∧
      fitsPairShape (add_user data user_name).1 = true) := by
  constructor
  · intro h
    obtain ⟨u, hu, hname⟩ := h
    have hsome : (data.find? (fun user => user.name == user_name)).isSome := by
      rw [List.find?_isSome]
      exact ⟨u, hu, by simp [hname]⟩
    obtain ⟨v, hv⟩ := Option.isSome_iff_exists.mp hsome
    refine ⟨by simp [add_user, hv], ?_⟩
    simp only [add_user, hv]
    rfl
  · intro h
    have hnone : data.find? (fun user => user.name == user_name) = none :=
      List.find?_eq_none.mpr (fun u hu => by simp [h u hu])
    exact ⟨by simp [add_user, hnone], by simp [add_user, hnone, fitsPairShape]⟩

theorem add_user_result_shape_witness :
    (add_user sampleDoc "Alice").1 =
      .errStr "User with this name already exists." ∧
    fitsPairShape (add_user sampleDoc "Alice").1 = false :=
  (add_user_result_shape sampleDoc "Alice").1 (by decide)

/-- C7: `delete_movie` always writes (the write flag is true even when
nothing matched), and it is idempotent: a second call on the document the
first one wrote leaves that document unchanged (while still writing). -/
theorem delete_movie_idempotent_always_writes (data : List User)
    (user_id movie_id : PyId) (mid : Int) (h : pyToInt? movie_id = some mid) :
    delete_movie data user_id movie_id =
      some (deleteMovieCore data (pyStr user_id) mid, true) ∧
    delete_movie (deleteMovieCore data (pyStr user_id) mid) user_id movie_id =
      some (deleteMovieCore data (pyStr user_id) mid, true) := by
  refine ⟨by simp [delete_movie, h], ?_⟩
  simp [delete_movie, h, deleteMovieCore_idem]

theorem delete_movie_idempotent_always_writes_witness :
    delete_movie sampleDoc (.str "1") (.int 1) =
      some (deleteMovieCore sampleDoc "1" 1, true) ∧
    delete_movie (deleteMovieCore sampleDoc "1" 1) (.str "1") (.int 1) =
      some (deleteMovieCore sampleDoc "1" 1, true) :=
  delete_movie_idempotent_always_writes sampleDoc (.str "1") (.int 1) 1 rfl

/-- C6: `update_movie` merges the given partial field set into the first
matching movie of the first matching user, overwriting exactly the present
fields (a rating-only update changes only the rating), leaving every other
movie and user untouched, and writing exactly then; when no user/movie
pair matches, the document is unchanged and no write occurs. -/
theorem update_movie_partial_merge :
    (∀ (pre post : List User) (u : User) (mpre mpost : List Movie) (m : Movie)
        (user_id movie_id : PyId) (mid : Int) (upd : MovieUpdate),
      pyToInt? movie_id = some mid →
      (∀ v ∈ pre, v.user_id ≠ pyStr user_id) → u.user_id = pyStr user_id →
      (∀ m2 ∈ mpre, m2.id ≠ mid) → m.id = mid →
      u.movies = mpre ++ m :: mpost →
      update_movie (pre ++ u :: post) user_id movie_id upd =
        some (pre ++ { u with movies := mpre ++ m.applyUpdate upd :: mpost } :: post,
          true)) ∧
    (∀ (m : Movie) (r : Rat),
      m.applyUpdate { rating := some r } = { m with rating := r }) ∧
    (∀ (data : List User) (user_id movie_id : PyId) (mid : Int) (upd : MovieUpdate),
      pyToInt? movie_id = some mid →
      (∀ u ∈ data, u.user_id = pyStr user_id → ∀ m2 ∈ u.movies, m2.id ≠ mid) →
      update_movie data user_id movie_id upd = some (data, false)) := by
  refine ⟨?_, ?_, ?_⟩
  · intro pre post u mpre mpost m user_id movie_id mid upd hcoe hpre hu hmpre hm hmv
    have hin : updateInMovies u.movies mid upd =
        some (mpre ++ m.applyUpdate upd :: mpost) := by
      rw [hmv]
      exact updateInMovies_found mpre mpost m mid upd hmpre hm
    simp [update_movie, hcoe,
      updateMovieCore_found pre post u (pyStr user_id) mid upd _ hpre hu hin]
  · intro m r
    rfl
  · intro data user_id movie_id mid upd hcoe h
    simp [update_movie, hcoe, updateMovieCore_not_found data (pyStr user_id) mid upd h]

theorem update_movie_partial_merge_witness :
    update_movie ([] ++ sampleUser :: []) (.str "1") (.int 1) { rating := some 9 } =
      some ([] ++
        { sampleUser with
            movies := [] ++ sampleMovie.applyUpdate { rating := some 9 } :: [] } :: [],
        true) ∧
    sampleMovie.applyUpdate { rating := some 9 } = { sampleMovie with rating := 9 } :=
  ⟨update_movie_partial_merge.1 [] [] sampleUser [] [] sampleMovie (.str "1") (.int 1)
      1 { rating := some 9 } rfl (by simp) rfl (by simp) rfl rfl,
   update_movie_partial_merge.2.1 sampleMovie 9⟩

/-- C2 counterexample: `get_user_movies` does not coerce its argument, so
the integer form and the string form of the same numeral give different
results on a document that stores the user id as the string. -/
theorem get_user_movies_no_coercion_counterexample :
    ¬ (get_user_movies sampleDoc (.int 1) = get_user_movies sampleDoc (.str "1")) := by
  decide

/-- C2 (amended): every id-taking storage method except `get_user_movies`
coerces ids at its boundary, so the string form and the integer form of
the same numeral give the same result in every id position of `get_movie`,
`update_movie`, `delete_movie` and `add_movie`. -/
theorem id_coercion_at_boundary (n : Int) (s : String)
    (h1 : toString n = s) (h2 : pyParseInt s = some n) :
    (∀ (data : List User) (movie_id : PyId),
      get_movie data (.str s) movie_id = get_movie data (.int n) movie_id) ∧
    (∀ (data : List User) (user_id : PyId),
      get_movie data user_id (.str s) = get_movie data user_id (.int n)) ∧
    (∀ (data : List User) (movie_id : PyId) (upd : MovieUpdate),
      update_movie data (.str s) movie_id upd =
        update_movie data (.int n) movie_id upd) ∧
    (∀ (data : List User) (user_id : PyId) (upd : MovieUpdate),
      update_movie data user_id (.str s) upd =
        update_movie data user_id (.int n) upd) ∧
    (∀ (data : List User) (movie_id : PyId),
      delete_movie data (.str s) movie_id = delete_movie data (.int n) movie_id) ∧
    (∀ (data : List User) (user_id : PyId),
      delete_movie data user_id (.str s) = delete_movie data user_id (.int n)) ∧
    (∀ (data : List User) (resp : OmdbResponse),
      add_movie data (.str s) resp = add_movie data (.int n) resp) := by
  have hs : pyStr (.str s) = pyStr (.int n) := by simp [pyStr, h1]
  have hi : pyToInt? (.str s) = pyToInt? (.int n) := by simp [pyToInt?, h2]
  refine ⟨?_, ?_, ?_, ?_, ?_, ?_, ?_⟩
  · intro data movie_id
    simp [get_movie, hs]
  · intro data user_id
    simp [get_movie, hi]
  · intro data movie_id upd
    simp [update_movie, hs]
  · intro data user_id upd
    simp [update_movie, hi]
  · intro data movie_id
    simp [delete_movie, hs]
  · intro data user_id
    simp [delete_movie, hi]
  · intro data resp
    cases resp with
    | found t d y r => simp [add_movie, hs]
    | notFound err => rfl

theorem id_coercion_at_boundary_witness :
    toString (1 : Int) = "1" ∧ pyParseInt "1" = some 1 ∧
    get_movie sampleDoc (.str "1") (.int 1) = get_movie sampleDoc (.int 1) (.int 1) :=
  ⟨rfl, by decide,
   (id_coercion_at_boundary 1 "1" rfl (by decide)).1 sampleDoc (.int 1)⟩

/-- C1: a successful `add_movie` on an existing user assigns the new
movie the id `max(existing ids, default 0) + 1`; along any per-user
history of add/delete steps the list's ids stay pairwise distinct, and
after deleting the movie with the highest id and adding a new one the
assigned id is one that an earlier add had already used, and is no larger
than the deleted one (so ids are not monotonic across deletions). -/
theorem add_movie_max_plus_one_and_reuse :
    (∀ (pre post : List User) (u : User) (user_id : PyId) (t d : String) (y : Int)
        (r : Option Rat),
      (∀ v ∈ pre, v.user_id ≠ pyStr user_id) → u.user_id = pyStr user_id →
      add_movie (pre ++ u :: post) user_id (.found t d y r) =
        (none, pre ++ { u with movies := u.movies ++
          [{ id := maxDefault0 (u.movies.map Movie.id) + 1, name := t,
             director := d, year := y, rating := r.getD 0 }] } :: post, true)) ∧
    (∀ (ms : List Movie) (used : List Int), MovieTrace ms used →
      (ms.map Movie.id).Nodup ∧
      (ms ≠ [] → ∀ (uid nm t d : String) (y : Int) (r : Rat),
        ∃ newId ∈ used, newId ≤ maxDefault0 (ms.map Movie.id) ∧
          delete_movie [{ user_id := uid, name := nm, movies := ms }] (.str uid)
              (.int (maxDefault0 (ms.map Movie.id))) =
            some ([{ user_id := uid, name := nm,
                     movies := ms.filter
                       (fun m => m.id != maxDefault0 (ms.map Movie.id)) }], true) ∧
          add_movie [{ user_id := uid, name := nm,
                       movies := ms.filter
                         (fun m => m.id != maxDefault0 (ms.map Movie.id)) }]
              (.str uid) (.found t d y (some r)) =
            (none, [{ user_id := uid, name := nm,
                      movies := ms.filter
                          (fun m => m.id != maxDefault0 (ms.map Movie.id)) ++
                        [{ id := newId, name := t, director := d, year := y,
                           rating := r }] }], true))) := by
  constructor
  · intro pre post u user_id t d y r hpre hu
    simp only [add_movie]
    rw [addMovieToUsers_found pre post u (pyStr user_id) t d y (r.getD 0) hpre hu]
  · intro ms used htr
    obtain ⟨h1, h2, h3, h4⟩ := movieTrace_invariant htr
    refine ⟨h4, ?_⟩
    intro hne uid nm t d y r
    have hmapne : ms.map Movie.id ≠ [] := fun hcontr => hne (List.map_eq_nil_iff.mp hcontr)
    obtain ⟨mM, hmM, hmMid⟩ := List.mem_map.mp (maxDefault0_mem hmapne)
    have hMused : maxDefault0 (ms.map Movie.id) ∈ used := hmMid ▸ h1 mM hmM
    have hM1 : 1 ≤ maxDefault0 (ms.map Movie.id) := h2 _ hMused
    have hnew_le :
        maxDefault0 ((ms.filter
            (fun m => m.id != maxDefault0 (ms.map Movie.id))).map Movie.id) + 1 ≤
          maxDefault0 (ms.map Movie.id) := by
      by_cases hfe : (ms.filter
          (fun m => m.id != maxDefault0 (ms.map Movie.id))).map Movie.id = []
      · rw [hfe]
        simpa [maxDefault0] using hM1
      · obtain ⟨m2, hm2, hm2id⟩ := List.mem_map.mp (maxDefault0_mem hfe)
        have hm2ne : m2.id ≠ maxDefault0 (ms.map Movie.id) := by
          have hb := (List.mem_filter.mp hm2).2
          simpa using hb
        have hle : m2.id ≤ maxDefault0 (ms.map Movie.id) :=
          le_maxDefault0_of_mem
            (List.mem_map_of_mem Movie.id (List.mem_of_mem_filter hm2))
        omega
    have hnew1 : 1 ≤ maxDefault0 ((ms.filter
        (fun m => m.id != maxDefault0 (ms.map Movie.id))).map Movie.id) + 1 := by
      by_cases hfe : (ms.filter
          (fun m => m.id != maxDefault0 (ms.map Movie.id))).map Movie.id = []
      · rw [hfe]
        norm_num [maxDefault0]
      · obtain ⟨m2, hm2, hm2id⟩ := List.mem_map.mp (maxDefault0_mem hfe)
        have hu2 : m2.id ∈ used := h1 m2 (List.mem_of_mem_filter hm2)
        have := h2 _ hu2
        omega
    refine ⟨maxDefault0 ((ms.filter
        (fun m => m.id != maxDefault0 (ms.map Movie.id))).map Movie.id) + 1,
      h3 _ hMused _ hnew1 hnew_le, hnew_le, ?_, ?_⟩
    · simp [delete_movie, pyToInt?, pyStr, deleteMovieCore]
    · simp [add_movie, pyStr, addMovieToUsers]

theorem add_movie_max_plus_one_and_reuse_witness :
    (add_movie ([] ++ sampleUser :: []) (.str "1")
        (.found "Dune" "Denis Villeneuve" 2021 (some 8)) =
      (none, [] ++ { sampleUser with movies := sampleUser.movies ++
        [{ id := maxDefault0 (sampleUser.movies.map Movie.id) + 1, name := "Dune",
           director := "Denis Villeneuve", year := 2021,
           rating := (some (8 : Rat)).getD 0 }] } :: [], true)) ∧
    ([sampleMovie].map Movie.id).Nodup :=
  ⟨add_movie_max_plus_one_and_reuse.1 [] [] sampleUser (.str "1") "Dune"
      "Denis Villeneuve" 2021 (some 8) (by simp) rfl,
   (add_movie_max_plus_one_and_reuse.2 [sampleMovie] [1]
      (MovieTrace.add "Inception" "Christopher Nolan" 2010 (88/10)
        MovieTrace.nil)).1⟩
